import Mathlib

/-!
Verification of the DataScope Analyzer repository: a shallow embedding of
its column-inference heuristic (`detectColumns` in `src/App.tsx`), the two
serverless proxy handlers, the key-obfuscation helpers, the CSV export, the
UI state handlers, and the parse-prompt construction, together with proofs
settling the frozen claims about them.

JS conventions modelled explicitly:
- a JS object is an ordered association list `List (String × Value)`;
- `undefined` results of string-valued expressions are modelled as `""`
  (both are falsy and the code only tests them with `!x` / `x || y`);
- `a || b` on strings is `jsOr`;
- the browser builtins `btoa`/`atob`, `split`/`join`, `startsWith`/`slice`
  are modelled by concrete executable Lean functions below.
-/

namespace DataScope

/-- A JS value stored in a record: the data model only ever holds strings
and numbers (`src/unnamed/part_006` types `DataItem`). -/
inductive Value where
  | str : String → Value
  | num : Int → Value
  deriving DecidableEq, Repr

/-- One row of the processed dataset: an ordered field-name/value mapping. -/
abbrev Record := List (String × Value)

/-- The inferred column mapping (`ColumnMapping` in `src/unnamed/part_006`). -/
structure ColumnMapping where
  xKey : String
  yKey : String
  categoryKey : String
  deriving DecidableEq, Repr

/-- Initial mapping state (`src/App.tsx` line 27). -/
def initialColMapping : ColumnMapping := ⟨"", "", ""⟩

def isStr : Value → Bool
  | .str _ => true
  | .num _ => false

def isNum : Value → Bool
  | .str _ => false
  | .num _ => true

/-- Boolean prefix test on character lists (models the inner loop of JS
`String.prototype.includes`). -/
def isPre : List Char → List Char → Bool
  | [], _ => true
  | _ :: _, [] => false
  | a :: as, b :: bs => a = b && isPre as bs

/-- Substring test on character lists. -/
def hasSubL (needle : List Char) : List Char → Bool
  | [] => isPre needle []
  | c :: rest => isPre needle (c :: rest) || hasSubL needle rest

/-- Models JS `hay.includes(sub)`. -/
def hasSub (hay sub : String) : Bool := hasSubL sub.toList hay.toList

/-- Models JS `s.toLowerCase()` (the kernel-reducible counterpart of
`String.toLower`: map `Char.toLower` over the characters). -/
def jsToLower (s : String) : String := String.mk (s.toList.map Char.toLower)

/-- Models JS `a || b` for strings (empty string is falsy; `undefined`
is modelled as `""`). -/
def jsOr (a b : String) : String := if a = "" then b else a

/-- `keys[i]` with JS out-of-bounds `undefined` modelled as `""`. -/
def keyAt (sample : Record) (i : Nat) : String := (sample.map Prod.fst).getD i ""

/-- `keys.find(p)` returning the found key, or `""` for `undefined`. -/
def findKey (sample : Record) (p : String × Value → Bool) : String :=
  match sample.find? p with
  | some kv => kv.1
  | none => ""

/-- `lowerKey.includes('date') || lowerKey.includes('time') ||
lowerKey.includes('day')` (`src/App.tsx` line 59). -/
def dateLike (key : String) : Bool :=
  hasSub (jsToLower key) "date" || hasSub (jsToLower key) "time" || hasSub (jsToLower key) "day"

/-- `lowerKey.includes('cat') || lowerKey.includes('region') ||
lowerKey.includes('type')` (`src/App.tsx` line 65). -/
def catPref (key : String) : Bool :=
  hasSub (jsToLower key) "cat" || hasSub (jsToLower key) "region" || hasSub (jsToLower key) "type"

/-- The qualification test of the category heuristic (`src/App.tsx` line 64):
string-valued, name not containing `date` or `id`, value shorter than 20. -/
def catQual (kv : String × Value) : Bool :=
  match kv.2 with
  | .str s => !(hasSub (jsToLower kv.1) "date") && !(hasSub (jsToLower kv.1) "id") && decide (s.length < 20)
  | .num _ => false

/-- `lowerKey.includes('sale') || lowerKey.includes('rev') ||
lowerKey.includes('amount')` (`src/App.tsx` line 72). -/
def numPref (key : String) : Bool :=
  hasSub (jsToLower key) "sale" || hasSub (jsToLower key) "rev" || hasSub (jsToLower key) "amount"

/-- Accumulator of the `keys.forEach` loop in `detectColumns`. -/
structure Best where
  bestDate : String
  bestNum : String
  bestCat : String
  deriving DecidableEq, Repr

/-- The date branch of the loop body (`src/App.tsx` lines 59-61). -/
def dateUpd (b : Best) (kv : String × Value) : Best :=
  if b.bestDate = "" && dateLike kv.1 then { b with bestDate := kv.1 } else b

/-- The category branch of the loop body (`src/App.tsx` lines 64-68). -/
def catUpd (b : Best) (kv : String × Value) : Best :=
  if catQual kv && (b.bestCat = "" || catPref kv.1) then { b with bestCat := kv.1 } else b

/-- The number branch of the loop body (`src/App.tsx` lines 71-75). -/
def numUpd (b : Best) (kv : String × Value) : Best :=
  if isNum kv.2 && (b.bestNum = "" || numPref kv.1) then { b with bestNum := kv.1 } else b

/-- One iteration of the `keys.forEach` loop (`src/App.tsx` lines 54-76). -/
def scanStep (b : Best) (kv : String × Value) : Best :=
  numUpd (catUpd (dateUpd b kv) kv) kv

/-- The axis key computed by `detectColumns` (`src/App.tsx` line 79):
loop result with the string-field/first-field fallback chain. -/
def coreDate (sample : Record) : String :=
  jsOr (sample.foldl scanStep ⟨"", "", ""⟩).bestDate
    (jsOr (findKey sample (fun kv => isStr kv.2)) (keyAt sample 0))

/-- The metric key computed by `detectColumns` (`src/App.tsx` line 80):
loop result with the numeric-field/second-field fallback chain. -/
def coreNum (sample : Record) : String :=
  jsOr (sample.foldl scanStep ⟨"", "", ""⟩).bestNum
    (jsOr (findKey sample (fun kv => isNum kv.2)) (keyAt sample 1))

/-- The category key computed by `detectColumns` (`src/App.tsx` line 81):
loop result, then the first string field other than the axis key, then the
first field. -/
def coreCat (sample : Record) : String :=
  jsOr (sample.foldl scanStep ⟨"", "", ""⟩).bestCat
    (jsOr (findKey sample (fun kv => isStr kv.2 && !(kv.1 == coreDate sample))) (keyAt sample 0))

/-- The pure core of `detectColumns` run on a non-empty data set's first
record (`src/App.tsx` lines 47-83): loop, then the three fallbacks. -/
def detectColumnsCore (sample : Record) : ColumnMapping :=
  ⟨coreDate sample, coreNum sample, coreCat sample⟩

/-- `detectColumns` (`src/App.tsx` lines 44-84) as a transformer of the
`colMapping` state: with empty or absent data it returns before calling
`setColMapping`, leaving the current mapping in place. -/
def detectColumns (data : List Record) (current : ColumnMapping) : ColumnMapping :=
  match data with
  | [] => current
  | sample :: _ => detectColumnsCore sample

/-- The fixed example dataset (`generateExampleData`,
`src/unnamed/part_004` lines 119-138). -/
def generateExampleData : List Record :=
  [ [("Transaction_Date", .str "2024-01-15"), ("Sales_Channel", .str "Online"),
     ("Product_Line", .str "Laptops"), ("Gross_Revenue", .num 15000), ("Units_Sold", .num 12)],
    [("Transaction_Date", .str "2024-02-03"), ("Sales_Channel", .str "Retail"),
     ("Product_Line", .str "Smartphones"), ("Gross_Revenue", .num 28000), ("Units_Sold", .num 35)],
    [("Transaction_Date", .str "2024-02-20"), ("Sales_Channel", .str "Online"),
     ("Product_Line", .str "Tablets"), ("Gross_Revenue", .num 8500), ("Units_Sold", .num 20)],
    [("Transaction_Date", .str "2024-03-10"), ("Sales_Channel", .str "Wholesale"),
     ("Product_Line", .str "Laptops"), ("Gross_Revenue", .num 45000), ("Units_Sold", .num 40)],
    [("Transaction_Date", .str "2024-03-25"), ("Sales_Channel", .str "Retail"),
     ("Product_Line", .str "Accessories"), ("Gross_Revenue", .num 3200), ("Units_Sold", .num 150)],
    [("Transaction_Date", .str "2024-04-05"), ("Sales_Channel", .str "Online"),
     ("Product_Line", .str "Smartphones"), ("Gross_Revenue", .num 31000), ("Units_Sold", .num 38)],
    [("Transaction_Date", .str "2024-04-18"), ("Sales_Channel", .str "Online"),
     ("Product_Line", .str "Laptops"), ("Gross_Revenue", .num 18000), ("Units_Sold", .num 15)],
    [("Transaction_Date", .str "2024-05-02"), ("Sales_Channel", .str "Retail"),
     ("Product_Line", .str "Tablets"), ("Gross_Revenue", .num 9200), ("Units_Sold", .num 22)],
    [("Transaction_Date", .str "2024-05-20"), ("Sales_Channel", .str "Wholesale"),
     ("Product_Line", .str "Accessories"), ("Gross_Revenue", .num 5600), ("Units_Sold", .num 200)],
    [("Transaction_Date", .str "2024-06-12"), ("Sales_Channel", .str "Online"),
     ("Product_Line", .str "Smartphones"), ("Gross_Revenue", .num 29500), ("Units_Sold", .num 36)],
    [("Transaction_Date", .str "2024-06-28"), ("Sales_Channel", .str "Retail"),
     ("Product_Line", .str "Laptops"), ("Gross_Revenue", .num 21000), ("Units_Sold", .num 18)],
    [("Transaction_Date", .str "2024-07-08"), ("Sales_Channel", .str "Online"),
     ("Product_Line", .str "Accessories"), ("Gross_Revenue", .num 4100), ("Units_Sold", .num 180)],
    [("Transaction_Date", .str "2024-07-25"), ("Sales_Channel", .str "Wholesale"),
     ("Product_Line", .str "Tablets"), ("Gross_Revenue", .num 11000), ("Units_Sold", .num 25)],
    [("Transaction_Date", .str "2024-08-05"), ("Sales_Channel", .str "Retail"),
     ("Product_Line", .str "Smartphones"), ("Gross_Revenue", .num 33000), ("Units_Sold", .num 42)],
    [("Transaction_Date", .str "2024-08-22"), ("Sales_Channel", .str "Online"),
     ("Product_Line", .str "Laptops"), ("Gross_Revenue", .num 16500), ("Units_Sold", .num 14)] ]

/-! ### Key obfuscation (`src/unnamed/part_004` lines 1-50)

`btoa`/`atob` are browser builtins; they are modelled by a concrete base64
codec over Latin-1 character codes: `btoa` fails (throws, modelled as
`none`) on any character with code point 256 or above, and `atob` fails on
any input that is not valid base64 — in particular on any character with
code point 256 or above, which is never in the base64 alphabet. -/

def b64alpha : List Char :=
  "ABCDEFGHIJKLMNOPQRSTUVWXYZabcdefghijklmnopqrstuvwxyz0123456789+/".toList

def b64chr (n : Nat) : Char := b64alpha.getD n 'A'

def idxFrom (c : Char) : List Char → Nat → Option Nat
  | [], _ => none
  | a :: rest, i => if a = c then some i else idxFrom c rest (i + 1)

def b64val (c : Char) : Option Nat := idxFrom c b64alpha 0

/-- Base64-encode a byte list, three bytes to four characters, with
trailing `=` padding. -/
def enc3 : List Nat → List Char
  | [] => []
  | [b1] => [b64chr (b1 / 4), b64chr (b1 % 4 * 16), '=', '=']
  | [b1, b2] => [b64chr (b1 / 4), b64chr (b1 % 4 * 16 + b2 / 16), b64chr (b2 % 16 * 4), '=']
  | b1 :: b2 :: b3 :: rest =>
      b64chr (b1 / 4) :: b64chr (b1 % 4 * 16 + b2 / 16) ::
      b64chr (b2 % 16 * 4 + b3 / 64) :: b64chr (b3 % 64) :: enc3 rest

/-- Base64-decode four characters at a time; `none` on any invalid
character, misplaced padding, or leftover length. -/
def dec4 : List Char → Option (List Nat)
  | [] => some []
  | c1 :: c2 :: c3 :: c4 :: rest =>
    match b64val c1, b64val c2 with
    | some s1, some s2 =>
      if c3 = '=' then
        if c4 = '=' && rest.isEmpty then some [s1 * 4 + s2 / 16] else none
      else
        match b64val c3 with
        | some s3 =>
          if c4 = '=' then
            if rest.isEmpty then some [s1 * 4 + s2 / 16, s2 % 16 * 16 + s3 / 4] else none
          else
            match b64val c4 with
            | some s4 =>
              match dec4 rest with
              | some bs => some ((s1 * 4 + s2 / 16) :: (s2 % 16 * 16 + s3 / 4) :: (s3 % 4 * 64 + s4) :: bs)
              | none => none
            | none => none
        | none => none
    | _, _ => none
  | _ => none

def strBytes (s : String) : List Nat := s.toList.map Char.toNat

def bytesStr (bs : List Nat) : String := String.mk (bs.map Char.ofNat)

/-- Model of the browser `btoa` builtin. -/
def btoaM (s : String) : Option String :=
  if s.toList.all (fun c => c.toNat < 256) then some (String.mk (enc3 (strBytes s))) else none

/-- Model of the browser `atob` builtin. -/
def atobM (s : String) : Option String := (dec4 s.toList).map bytesStr

/-- Models JS `s.startsWith(p)`. -/
def jsStartsWith (s p : String) : Bool := isPre p.toList s.toList

/-- Models JS `s.slice(n)`. -/
def jsSliceFrom (s : String) (n : Nat) : String := String.mk (s.toList.drop n)

/-- `SALT` (`src/unnamed/part_004` line 5). -/
def SALT : String := "ds_v1_salt_"

/-- `encryptKey` (`src/unnamed/part_004` lines 6-10): `btoa(SALT + key)`,
falling back to the key unchanged if `btoa` throws. -/
def encryptKey (key : String) : String := (btoaM (SALT ++ key)).getD key

/-- `decryptKey` (`src/unnamed/part_004` lines 12-18): `atob`, strip the
salt if present, fall back to the input unchanged otherwise or on error. -/
def decryptKey (enc : String) : String :=
  match atobM enc with
  | some decoded => if jsStartsWith decoded SALT then jsSliceFrom decoded SALT.length else enc
  | none => enc

/-! ### Proxy forwarders

Two serverless variants exist in the repository: a Node handler
(`src/unnamed/part_001`) that rejects a missing `prompt` with 400, and an
edge-runtime handler (second document of `src/App.tsx`) that forwards the
body to the upstream call without checking `prompt`. The upstream LLM call
is an external collaborator, modelled as an oracle parameter; the result
records whether that oracle was invoked. -/

inductive HMethod where
  | GET | POST | OPTIONS | PUT
  deriving DecidableEq, Repr

structure ReqBody where
  prompt : Option String
  systemInstruction : Option String
  schema : Option String
  deriving DecidableEq, Repr

structure HandlerResponse where
  status : Nat
  upstreamCalled : Bool
  payload : String
  deriving DecidableEq, Repr

/-- The upstream `ai.models.generateContent` call: prompt, system
instruction and schema in, response text (or a thrown error) out. -/
abbrev Upstream := Option String → Option String → Option String → Except String String

/-- JS falsiness of the destructured `prompt` field: absent or `""`. -/
def promptFalsy : Option String → Bool
  | none => true
  | some s => s == ""

/-- Node serverless handler (`src/unnamed/part_001` lines 4-60). The two
environment variables `API_KEY` and `VITE_API_KEY` are modelled as strings
with `""` for unset. -/
def nodeHandler (envApiKey envViteKey : String) (up : Upstream)
    (method : HMethod) (body : Option ReqBody) : HandlerResponse :=
  match method with
  | .OPTIONS => ⟨200, false, ""⟩
  | .POST =>
    let apiKey := jsOr envApiKey envViteKey
    if apiKey = "" then ⟨500, false, "Server configuration error: API Key missing in Vercel env"⟩
    else
      let b := body.getD ⟨none, none, none⟩
      if promptFalsy b.prompt then ⟨400, false, "Missing prompt in request body"⟩
      else
        match up b.prompt b.systemInstruction b.schema with
        | .ok t => ⟨200, true, jsOr t "[]"⟩
        | .error e => ⟨500, true, e⟩
  | _ => ⟨405, false, "Method not allowed"⟩

/-- Edge-runtime handler (second document of `src/App.tsx`, lines 408-478):
no `prompt` check at all; a body that fails to parse as JSON throws into
the catch block (500). -/
def edgeHandler (envApiKey envViteKey : String) (up : Upstream)
    (method : HMethod) (body : Option ReqBody) : HandlerResponse :=
  match method with
  | .OPTIONS => ⟨200, false, ""⟩
  | .POST =>
    let apiKey := jsOr envApiKey envViteKey
    if apiKey = "" then ⟨500, false, "Server configuration error: API Key missing"⟩
    else
      match body with
      | none => ⟨500, false, "Invalid JSON body"⟩
      | some b =>
        match up b.prompt b.systemInstruction b.schema with
        | .ok t => ⟨200, true, jsOr t "[]"⟩
        | .error e => ⟨500, true, e⟩
  | _ => ⟨405, false, "Method not allowed"⟩

/-! ### CSV export (`handleExportData`, `src/App.tsx` lines 134-152)

JS `split`/`join` on single-character separators are modelled by concrete
list functions. The "naive comma split" re-parser named by the claim is
not repository code; it is defined below exactly as the claim words it
(split lines, split the header and each line on commas, zip). -/

/-- Models JS `s.split(sep)` for a one-character separator. -/
def splitOnChar (sep : Char) : List Char → List (List Char)
  | [] => [[]]
  | c :: rest =>
    if c = sep then [] :: splitOnChar sep rest
    else
      match splitOnChar sep rest with
      | g :: gs => (c :: g) :: gs
      | [] => [[c]]

/-- Models JS `parts.join(sep)` for a one-character separator. -/
def joinChar (sep : Char) : List (List Char) → List Char
  | [] => []
  | [p] => p
  | p :: q :: rest => p ++ sep :: joinChar sep (q :: rest)

def jsSplit (sep : Char) (s : String) : List String :=
  (splitOnChar sep s.toList).map String.mk

def jsJoin (sep : Char) (parts : List String) : String :=
  String.mk (joinChar sep (parts.map String.toList))

/-- JS stringification of a record value as used by `join` (`String(v)`). -/
def valueToString : Value → String
  | .str s => s
  | .num n => toString n

/-- The CSV branch of `handleExportData` (`src/App.tsx` lines 142-144):
header row of the first record's field names, then one comma-joined line
of values per record ("" for the guarded-out empty data set). -/
def csvContent (rows : List Record) : String :=
  match rows with
  | [] => ""
  | r0 :: _ =>
    let headers := jsJoin ',' (r0.map Prod.fst)
    let body := jsJoin '\n' (rows.map (fun r => jsJoin ',' (r.map (fun kv => valueToString kv.2))))
    headers ++ "\n" ++ body

/-- The naive comma-split re-parser of the round-trip claim (defined from
the claim's words: header row split on commas, each further line split on
commas and zipped with the header). -/
def naiveParseCSV (s : String) : List (List (String × String)) :=
  match jsSplit '\n' s with
  | [] => []
  | header :: lines =>
    let hs := jsSplit ',' header
    lines.map (fun line => hs.zip (jsSplit ',' line))

/-- A string free of commas and newlines (the separators the naive CSV
format cannot escape). -/
def sepFree (s : String) : Bool := decide (',' ∉ s.toList ∧ '\n' ∉ s.toList)

/-! ### UI state and the two data-loading handlers (`src/App.tsx`) -/

inductive Tab where
  | table | visualizations
  deriving DecidableEq, Repr

structure ProcessingOptions where
  cleanMissingValues : Bool
  normalizeData : Bool
  sortData : Bool
  filterRows : Bool
  deriving DecidableEq, Repr

structure UIState where
  rawData : String
  processedData : List Record
  colMapping : ColumnMapping
  errorMsg : Option String
  activeTab : Tab
  isProcessing : Bool
  deriving DecidableEq, Repr

/-- Model of the `JSON.stringify(data, null, 2)` builtin used on success
in `handleLoadExample`; its exact output is irrelevant to every claim. -/
def jsonValue : Value → String
  | .str s => "\"" ++ s ++ "\""
  | .num n => toString n

def jsonRecord (r : Record) : String :=
  "\x7b" ++ String.intercalate ", " (r.map (fun kv => "\"" ++ kv.1 ++ "\": " ++ jsonValue kv.2)) ++ "\x7d"

def jsonStringify (rows : List Record) : String :=
  "[" ++ String.intercalate ", " (rows.map jsonRecord) ++ "]"

/-- `handleLoadExample` (`src/App.tsx` lines 86-104), with the awaited
outcome of `generateExampleData` passed in as an `Except`. -/
def handleLoadExample (result : Except String (List Record)) (s : UIState) : UIState :=
  let s1 : UIState :=
    { s with isProcessing := true, errorMsg := none, rawData := "Loading example dataset..." }
  let s2 : UIState :=
    match result with
    | .ok data =>
      if data.length > 0 then
        { s1 with processedData := data, colMapping := detectColumns data s1.colMapping,
                  rawData := jsonStringify data }
      else s1
    | .error e =>
      { s1 with errorMsg := some ("Failed to load: " ++ e), rawData := "Error: " ++ e }
  { s2 with isProcessing := false }

/-- `handleProcessData` (`src/App.tsx` lines 106-124), with the awaited
outcome of `parseAndProcessData` passed in as an `Except`. -/
def handleProcessData (result : Except String (List Record)) (s : UIState) : UIState :=
  if s.rawData.trim = "" then s
  else
    let s1 : UIState := { s with isProcessing := true, errorMsg := none }
    let s2 : UIState :=
      match result with
      | .ok r =>
        if r.length > 0 then
          { s1 with processedData := r, colMapping := detectColumns r s1.colMapping,
                    activeTab := .visualizations }
        else { s1 with errorMsg := some "AI returned no valid data." }
      | .error e => { s1 with errorMsg := some ("Processing failed: " ++ e) }
    { s2 with isProcessing := false }

/-! ### Parse request construction (`parseAndProcessData`,
`src/unnamed/part_004` lines 90-117) -/

/-- Models JS `s.substring(0, n)`. -/
def jsSubstringTo (s : String) (n : Nat) : String := String.mk (s.toList.take n)

/-- The system instruction template of `parseAndProcessData`, with the
four option-dependent directive lines. -/
def systemInstructionFor (o : ProcessingOptions) : String :=
  "\n    You are an advanced data parsing engine.\n" ++
  "    Analyze the user's raw text. It could be CSV, JSON, or just unstructured text.\n" ++
  "    Extract the data into a JSON array of objects.\n    \n" ++
  "    IMPORTANT: Do NOT force specific field names like 'sales' or 'date' unless they exist in the data.\n" ++
  "    Preserve the original column names or inferred meaningful names.\n" ++
  "    Ensure all objects in the array have the same keys.\n    \n" ++
  "    Processing Rules:\n    " ++
  (if o.cleanMissingValues then "- Infer missing values logically." else "- Leave missing values null.") ++
  "\n    " ++ (if o.normalizeData then "- Normalize numerical outliers." else "") ++
  "\n    " ++ (if o.sortData then "- Sort chronologically if a date column exists." else "") ++
  "\n    " ++ (if o.filterRows then "- Remove garbage/header/footer rows." else "") ++ "\n  "

/-- The user prompt of `parseAndProcessData`: a fixed prefix followed by
the raw input truncated to its first 30000 characters. -/
def buildParsePrompt (rawInput : String) : String :=
  "Parse this data into a valid JSON array of objects:\n" ++ jsSubstringTo rawInput 30000

/-- `parseAndProcessData` with the chosen transport (`callGemini`, local
SDK or proxy) abstracted as an oracle from prompt and system instruction
to the parsed result. -/
def parseAndProcessData (transport : String → String → Except String (List Record))
    (rawInput : String) (o : ProcessingOptions) : Except String (List Record) :=
  transport (buildParsePrompt rawInput) (systemInstructionFor o)

/-! ## Theorems -/

/-! ### Column Mapper loop lemmas -/

theorem dateUpd_bestDate (b : Best) (kv : String × Value) :
    (dateUpd b kv).bestDate = if b.bestDate = "" && dateLike kv.1 then kv.1 else b.bestDate := by
  unfold dateUpd; split <;> rfl

theorem dateUpd_bestCat (b : Best) (kv : String × Value) : (dateUpd b kv).bestCat = b.bestCat := by
  unfold dateUpd; split <;> rfl

theorem dateUpd_bestNum (b : Best) (kv : String × Value) : (dateUpd b kv).bestNum = b.bestNum := by
  unfold dateUpd; split <;> rfl

theorem catUpd_bestCat (b : Best) (kv : String × Value) :
    (catUpd b kv).bestCat = if catQual kv && (b.bestCat = "" || catPref kv.1) then kv.1 else b.bestCat := by
  unfold catUpd; split <;> rfl

theorem catUpd_bestDate (b : Best) (kv : String × Value) : (catUpd b kv).bestDate = b.bestDate := by
  unfold catUpd; split <;> rfl

theorem catUpd_bestNum (b : Best) (kv : String × Value) : (catUpd b kv).bestNum = b.bestNum := by
  unfold catUpd; split <;> rfl

theorem numUpd_bestNum (b : Best) (kv : String × Value) :
    (numUpd b kv).bestNum = if isNum kv.2 && (b.bestNum = "" || numPref kv.1) then kv.1 else b.bestNum := by
  unfold numUpd; split <;> rfl

theorem numUpd_bestDate (b : Best) (kv : String × Value) : (numUpd b kv).bestDate = b.bestDate := by
  unfold numUpd; split <;> rfl

theorem numUpd_bestCat (b : Best) (kv : String × Value) : (numUpd b kv).bestCat = b.bestCat := by
  unfold numUpd; split <;> rfl

theorem scanStep_bestDate (b : Best) (kv : String × Value) :
    (scanStep b kv).bestDate = if b.bestDate = "" && dateLike kv.1 then kv.1 else b.bestDate := by
  unfold scanStep; rw [numUpd_bestDate, catUpd_bestDate, dateUpd_bestDate]

theorem scanStep_bestCat (b : Best) (kv : String × Value) :
    (scanStep b kv).bestCat = if catQual kv && (b.bestCat = "" || catPref kv.1) then kv.1 else b.bestCat := by
  unfold scanStep; rw [numUpd_bestCat, catUpd_bestCat, dateUpd_bestCat]

theorem scanStep_bestNum (b : Best) (kv : String × Value) :
    (scanStep b kv).bestNum = if isNum kv.2 && (b.bestNum = "" || numPref kv.1) then kv.1 else b.bestNum := by
  unfold scanStep; rw [numUpd_bestNum, catUpd_bestNum, dateUpd_bestNum]

/-- Once set, the loop's date slot never changes. -/
theorem foldl_bestDate_keep (l : Record) (b : Best) (h : b.bestDate ≠ "") :
    (l.foldl scanStep b).bestDate = b.bestDate := by
  induction l generalizing b with
  | nil => rfl
  | cons kv l ih =>
    have hstep : (scanStep b kv).bestDate = b.bestDate := by
      rw [scanStep_bestDate]; simp [h]
    simp only [List.foldl_cons]
    rw [ih _ (by rw [hstep]; exact h), hstep]

/-- The loop's date slot is untouched while no date-like field appears. -/
theorem foldl_bestDate_none (l : Record) (b : Best) (h : ∀ kv ∈ l, dateLike kv.1 = false) :
    (l.foldl scanStep b).bestDate = b.bestDate := by
  induction l generalizing b with
  | nil => rfl
  | cons kv l ih =>
    have hkv := h kv (List.mem_cons_self kv l)
    have hstep : (scanStep b kv).bestDate = b.bestDate := by
      rw [scanStep_bestDate]; simp [hkv]
    simp only [List.foldl_cons]
    rw [ih _ (fun x hx => h x (List.mem_cons_of_mem _ hx)), hstep]

/-- Once set, the loop's category slot survives any stretch of fields that
are not both qualifying and preferred. -/
theorem foldl_bestCat_keep (l : Record) (b : Best) (h : b.bestCat ≠ "")
    (hl : ∀ kv ∈ l, catQual kv = false ∨ catPref kv.1 = false) :
    (l.foldl scanStep b).bestCat = b.bestCat := by
  induction l generalizing b with
  | nil => rfl
  | cons kv l ih =>
    have hstep : (scanStep b kv).bestCat = b.bestCat := by
      rw [scanStep_bestCat]
      rcases hl kv (List.mem_cons_self kv l) with h1 | h1 <;> simp [h1, h]
    simp only [List.foldl_cons]
    rw [ih _ (by rw [hstep]; exact h) (fun x hx => hl x (List.mem_cons_of_mem _ hx)), hstep]

/-- The loop's number slot is untouched while no numeric field appears. -/
theorem foldl_bestNum_none (l : Record) (b : Best) (h : ∀ kv ∈ l, isNum kv.2 = false) :
    (l.foldl scanStep b).bestNum = b.bestNum := by
  induction l generalizing b with
  | nil => rfl
  | cons kv l ih =>
    have hkv := h kv (List.mem_cons_self kv l)
    have hstep : (scanStep b kv).bestNum = b.bestNum := by
      rw [scanStep_bestNum]; simp [hkv]
    simp only [List.foldl_cons]
    rw [ih _ (fun x hx => h x (List.mem_cons_of_mem _ hx)), hstep]

/-! ### C1 -/

/-- C1, counterexample: the record `{time: "t", date: "x"}` contains a
field literally named `date`, yet `detectColumns` assigns `time` — not
`date` — as the axis key, because the earlier field's name contains
`time`. The claim's "regardless of which other fields the record contains
or their order" is false. -/
theorem axis_literal_date_cex :
    (detectColumns [[("time", Value.str "t"), ("date", Value.str "x")]] initialColMapping).xKey = "time" ∧
    (detectColumns [[("time", Value.str "t"), ("date", Value.str "x")]] initialColMapping).xKey ≠ "date" := by
  decide

/-- C1 (amended): for a sample record containing a field literally named
`date` (any casing), `detectColumns` assigns that field as the axis key
provided no earlier field's name contains `date`, `time`, or `day`. -/
theorem axis_literal_date_first_datelike (pre post : Record) (name : String) (v : Value)
    (rest : List Record) (cm : ColumnMapping)
    (hname : jsToLower name = "date")
    (hpre : ∀ kv ∈ pre, dateLike kv.1 = false) :
    (detectColumns ((pre ++ (name, v) :: post) :: rest) cm).xKey = name := by
  have hdl : dateLike name = true := by
    unfold dateLike; rw [hname]; decide
  have hne : name ≠ "" := by
    intro h; rw [h] at hname; exact absurd hname (by decide)
  show coreDate (pre ++ (name, v) :: post) = name
  unfold coreDate
  rw [List.foldl_append]
  have h1 : (pre.foldl scanStep ⟨"", "", ""⟩).bestDate = "" := foldl_bestDate_none pre _ hpre
  simp only [List.foldl_cons]
  have h2 : (scanStep (pre.foldl scanStep ⟨"", "", ""⟩) (name, v)).bestDate = name := by
    rw [scanStep_bestDate, h1]; simp [hdl]
  rw [foldl_bestDate_keep post _ (by rw [h2]; exact hne), h2]
  unfold jsOr
  simp [hne]

/-- Witness for `axis_literal_date_first_datelike` at a concrete record. -/
theorem axis_literal_date_first_datelike_witness :
    (jsToLower "Date" = "date") ∧
    (∀ kv ∈ ([("id", Value.num 1)] : Record), dateLike kv.1 = false) ∧
    (detectColumns (([("id", Value.num 1)] ++ ("Date", Value.str "2024") :: [("x", Value.num 2)]) :: [])
        initialColMapping).xKey = "Date" :=
  ⟨by decide, by decide,
    axis_literal_date_first_datelike [("id", Value.num 1)] [("x", Value.num 2)] "Date"
      (Value.str "2024") [] initialColMapping (by decide) (by decide)⟩

/-! ### C2 -/

/-- C2, counterexample: in `{category: "a", region_x: "b"}` both fields
qualify for the category slot and both names match the preferred
`cat`/`region`/`type` substrings, yet `detectColumns` picks the *later*
`region_x`: a later preferred match replaces an earlier one, so "first
match wins" is false for the category slot. -/
theorem category_first_match_cex :
    (detectColumns [[("category", Value.str "a"), ("region_x", Value.str "b")]] initialColMapping).categoryKey = "region_x" ∧
    (detectColumns [[("category", Value.str "a"), ("region_x", Value.str "b")]] initialColMapping).categoryKey ≠ "category" := by
  decide

/-- C2 (amended): a qualifying field whose name contains `cat`, `region`,
or `type` always overwrites the current category choice, so the *last*
preferred qualifying field in iteration order is chosen (the first
qualifying field wins only among non-preferred fields). -/
theorem category_last_preferred (pre post : Record) (name : String) (v : Value)
    (rest : List Record) (cm : ColumnMapping)
    (hq : catQual (name, v) = true) (hp : catPref name = true) (hne : name ≠ "")
    (hpost : ∀ kv ∈ post, catQual kv = false ∨ catPref kv.1 = false) :
    (detectColumns ((pre ++ (name, v) :: post) :: rest) cm).categoryKey = name := by
  show coreCat (pre ++ (name, v) :: post) = name
  unfold coreCat
  rw [List.foldl_append]
  simp only [List.foldl_cons]
  have h2 : (scanStep (pre.foldl scanStep ⟨"", "", ""⟩) (name, v)).bestCat = name := by
    rw [scanStep_bestCat]; simp [hq, hp]
  rw [foldl_bestCat_keep post _ (by rw [h2]; exact hne) hpost, h2]
  unfold jsOr
  simp [hne]

/-- Witness for `category_last_preferred` at a concrete record. -/
theorem category_last_preferred_witness :
    (catQual ("Type", Value.str "a") = true) ∧ (catPref "Type" = true) ∧
    (∀ kv ∈ ([("note", Value.str "b")] : Record), catQual kv = false ∨ catPref kv.1 = false) ∧
    (detectColumns (([] ++ ("Type", Value.str "a") :: [("note", Value.str "b")]) :: [])
        initialColMapping).categoryKey = "Type" :=
  ⟨by decide, by decide, by decide,
    category_last_preferred [] [("note", Value.str "b")] "Type" (Value.str "a") []
      initialColMapping (by decide) (by decide) (by decide) (by decide)⟩

/-! ### C3 -/

/-- C3: on the first record of the fixed example dataset (fields in order
`Transaction_Date`, `Sales_Channel`, `Product_Line`, `Gross_Revenue`,
`Units_Sold`) the Column Mapper yields axis key `Transaction_Date`,
metric key `Gross_Revenue`, and category key `Sales_Channel` (the first
qualifying string field). -/
theorem example_dataset_mapping :
    detectColumns generateExampleData initialColMapping =
      ⟨"Transaction_Date", "Gross_Revenue", "Sales_Channel"⟩ := by
  decide

/-! ### C4 -/

/-- C4: for a sample record with no numeric-valued fields, the metric key
is the second field name in iteration order (index 1) when the record has
at least two fields — `keyAt sample 1` — and blank when it has fewer than
two fields. -/
theorem metric_no_numeric_fallback (sample : Record) (rest : List Record) (cm : ColumnMapping)
    (h : ∀ kv ∈ sample, isNum kv.2 = false) :
    (detectColumns (sample :: rest) cm).yKey = keyAt sample 1 ∧
    (sample.length < 2 → (detectColumns (sample :: rest) cm).yKey = "") := by
  have hfind : sample.find? (fun kv => isNum kv.2) = none := by
    rw [List.find?_eq_none]
    intro kv hkv
    simp [h kv hkv]
  have hmain : (detectColumns (sample :: rest) cm).yKey = keyAt sample 1 := by
    show coreNum sample = keyAt sample 1
    unfold coreNum findKey
    rw [foldl_bestNum_none sample _ h, hfind]
    unfold jsOr
    simp
  refine ⟨hmain, fun hlen => ?_⟩
  rw [hmain]
  unfold keyAt
  apply List.getD_eq_default
  simp
  omega

/-- Witness for `metric_no_numeric_fallback` at a one-field record. -/
theorem metric_no_numeric_fallback_witness :
    (∀ kv ∈ ([("a", Value.str "hello")] : Record), isNum kv.2 = false) ∧
    ((detectColumns [[("a", Value.str "hello")]] initialColMapping).yKey = keyAt [("a", Value.str "hello")] 1 ∧
      (([("a", Value.str "hello")] : Record).length < 2 →
        (detectColumns [[("a", Value.str "hello")]] initialColMapping).yKey = "")) :=
  ⟨by decide, metric_no_numeric_fallback [("a", Value.str "hello")] [] initialColMapping (by decide)⟩

/-! ### C6 -/

/-- C6, counterexample: invoked with an empty data array, `detectColumns`
returns before calling `setColMapping`, so a previously non-blank mapping
stays in place — the result is not the all-blank mapping. -/
theorem empty_data_mapping_cex :
    detectColumns [] ⟨"a", "b", "c"⟩ ≠ (⟨"", "", ""⟩ : ColumnMapping) := by
  decide

/-- C6 (amended): on an empty record set `detectColumns` leaves the column
mapping unchanged; in particular, starting from the initial all-blank
mapping (`src/App.tsx` line 27) all three keys remain blank. -/
theorem empty_data_keeps_mapping (cm : ColumnMapping) :
    detectColumns [] cm = cm ∧ detectColumns [] initialColMapping = ⟨"", "", ""⟩ :=
  ⟨rfl, rfl⟩

/-! ### C5 -/

/-- C5, counterexample: the edge-runtime variant of the proxy forwarder
(second document of `src/App.tsx`) never checks `prompt`: a POST whose
body lacks the field still triggers the upstream LLM call and does not
return 400. -/
theorem edge_forwarder_missing_prompt_cex :
    (edgeHandler "k" "" (fun _ _ _ => Except.ok "[]") HMethod.POST (some ⟨none, none, none⟩)).upstreamCalled = true ∧
    (edgeHandler "k" "" (fun _ _ _ => Except.ok "[]") HMethod.POST (some ⟨none, none, none⟩)).status ≠ 400 := by
  decide

/-- C5 (amended): the Node serverless forwarder (`src/unnamed/part_001`),
when the server key environment resolves to a non-empty key, answers a
POST whose JSON body lacks (or has a falsy) `prompt` with status 400 and
never invokes the upstream LLM call; the edge-runtime variant lacks this
check. -/
theorem node_forwarder_missing_prompt_400 (envA envV : String) (up : Upstream)
    (body : Option ReqBody)
    (hkey : jsOr envA envV ≠ "")
    (hprompt : promptFalsy (body.getD ⟨none, none, none⟩).prompt = true) :
    (nodeHandler envA envV up HMethod.POST body).status = 400 ∧
    (nodeHandler envA envV up HMethod.POST body).upstreamCalled = false := by
  unfold nodeHandler
  simp [hkey, hprompt]

/-- Witness for `node_forwarder_missing_prompt_400` at a concrete request. -/
theorem node_forwarder_missing_prompt_400_witness :
    (jsOr "k" "" ≠ "") ∧
    (promptFalsy ((some (ReqBody.mk none none none)).getD ⟨none, none, none⟩).prompt = true) ∧
    ((nodeHandler "k" "" (fun _ _ _ => Except.ok "[]") HMethod.POST (some ⟨none, none, none⟩)).status = 400 ∧
      (nodeHandler "k" "" (fun _ _ _ => Except.ok "[]") HMethod.POST (some ⟨none, none, none⟩)).upstreamCalled = false) :=
  ⟨by decide, by decide,
    node_forwarder_missing_prompt_400 "k" "" (fun _ _ _ => Except.ok "[]")
      (some ⟨none, none, none⟩) (by decide) (by decide)⟩

/-! ### C7 -/

/-- C7, counterexample: a failing example load does *not* leave the
raw-input text unchanged — `handleLoadExample` first overwrites it with a
loading notice and then, on failure, with an error string. -/
theorem load_example_failure_rawdata_cex :
    (handleLoadExample (Except.error "boom")
        ⟨"hello", [], initialColMapping, none, Tab.table, false⟩).rawData ≠ "hello" := by
  decide

/-- C7 (amended): a failing parse (thrown error or empty result) leaves
the processed records, column mapping, and raw-input text unchanged apart
from the advisory message; a failing example load leaves the processed
records and column mapping unchanged but overwrites the raw-input text
with an error string. -/
theorem failure_preserves_core_state (e : String) (s : UIState) :
    (handleProcessData (Except.error e) s).processedData = s.processedData ∧
    (handleProcessData (Except.error e) s).colMapping = s.colMapping ∧
    (handleProcessData (Except.error e) s).rawData = s.rawData ∧
    (handleProcessData (Except.ok []) s).processedData = s.processedData ∧
    (handleProcessData (Except.ok []) s).colMapping = s.colMapping ∧
    (handleProcessData (Except.ok []) s).rawData = s.rawData ∧
    (handleLoadExample (Except.error e) s).processedData = s.processedData ∧
    (handleLoadExample (Except.error e) s).colMapping = s.colMapping ∧
    (handleLoadExample (Except.error e) s).rawData = "Error: " ++ e := by
  unfold handleProcessData handleLoadExample
  by_cases h : s.rawData.trim = "" <;> simp [h]

/-! ### C10 -/

/-- C10: the prompt `parseAndProcessData` hands to the transport depends
only on the first 30000 characters of the raw input — two inputs agreeing
on that prefix produce identical requests and hence identical results for
every transport and every option set. -/
theorem parse_prompt_truncation (transport : String → String → Except String (List Record))
    (o : ProcessingOptions) (s1 s2 : String)
    (h : s1.toList.take 30000 = s2.toList.take 30000) :
    parseAndProcessData transport s1 o = parseAndProcessData transport s2 o := by
  unfold parseAndProcessData buildParsePrompt jsSubstringTo
  rw [h]

/-- Witness for `parse_prompt_truncation`: two inputs that differ only at
character position 30000 yield the same parse request. -/
theorem parse_prompt_truncation_witness :
    ((String.mk (List.replicate 30000 'a' ++ ['b'])).toList.take 30000 =
      (String.mk (List.replicate 30000 'a' ++ ['c'])).toList.take 30000) ∧
    parseAndProcessData (fun _ _ => Except.ok []) (String.mk (List.replicate 30000 'a' ++ ['b']))
        ⟨true, false, true, true⟩ =
      parseAndProcessData (fun _ _ => Except.ok []) (String.mk (List.replicate 30000 'a' ++ ['c']))
        ⟨true, false, true, true⟩ := by
  have h : ∀ c : Char, (String.mk (List.replicate 30000 'a' ++ [c])).toList.take 30000 =
      List.replicate 30000 'a' := by
    intro c
    show (List.replicate 30000 'a' ++ [c]).take 30000 = _
    rw [List.take_append_of_le_length (by rw [List.length_replicate])]
    rw [List.take_replicate, min_self]
  exact ⟨(h 'b').trans (h 'c').symm,
    parse_prompt_truncation (fun _ _ => Except.ok []) ⟨true, false, true, true⟩ _ _
      ((h 'b').trans (h 'c').symm)⟩

/-! ### String plumbing lemmas -/

theorem strMk_toList (s : String) : String.mk s.toList = s := by
  cases s
  rfl

theorem toList_append (a b : String) : (a ++ b).toList = a.toList ++ b.toList := by
  cases a
  cases b
  rfl

theorem isPre_append : ∀ (p r : List Char), isPre p (p ++ r) = true
  | [], _ => rfl
  | a :: as, r => by simp [isPre, isPre_append as r]

/-! ### Base64 codec lemmas -/

theorem b64alpha_lt : ∀ a ∈ b64alpha, a.toNat < 256 := by decide

theorem b64val_chr : ∀ n < 64, b64val (b64chr n) = some n := by decide

theorem b64chr_ne_pad : ∀ n < 64, b64chr n ≠ '=' := by decide

theorem idxFrom_mem (c : Char) : ∀ (l : List Char) (i j : Nat), idxFrom c l i = some j → c ∈ l
  | [], i, j, h => by simp [idxFrom] at h
  | a :: rest, i, j, h => by
    by_cases hac : a = c
    · exact hac ▸ List.mem_cons_self a rest
    · rw [idxFrom, if_neg hac] at h
      exact List.mem_cons_of_mem _ (idxFrom_mem c rest (i + 1) j h)

theorem b64val_some_lt (c : Char) (j : Nat) (h : b64val c = some j) : c.toNat < 256 :=
  b64alpha_lt c (idxFrom_mem c b64alpha 0 j h)

theorem pad_toNat_lt : ('=' : Char).toNat < 256 := by decide

/-- Soundness of the decoder: a successfully decoded string consists only
of characters with code points below 256. -/
theorem dec4_chars : ∀ (l : List Char) (bs : List Nat), dec4 l = some bs → ∀ c ∈ l, c.toNat < 256
  | [], _, _ => by intro c hc; simp at hc
  | [c1], bs, h => by simp [dec4] at h
  | [c1, c2], bs, h => by simp [dec4] at h
  | [c1, c2, c3], bs, h => by simp [dec4] at h
  | c1 :: c2 :: c3 :: c4 :: rest, bs, h => by
    rw [dec4] at h
    cases hb1 : b64val c1 with
    | none => rw [hb1] at h; simp at h
    | some s1 =>
    cases hb2 : b64val c2 with
    | none => rw [hb1, hb2] at h; simp at h
    | some s2 =>
    rw [hb1, hb2] at h
    simp only at h
    have hlt1 : c1.toNat < 256 := b64val_some_lt c1 s1 hb1
    have hlt2 : c2.toNat < 256 := b64val_some_lt c2 s2 hb2
    by_cases h3 : c3 = '=' <;> [skip; skip]
    · rw [if_pos h3] at h
      by_cases h4 : (decide (c4 = '=') && rest.isEmpty) = true
      · have h4' : c4 = '=' := by
          have := (Bool.and_eq_true _ _).mp h4
          exact of_decide_eq_true this.1
        have hrest : rest = [] := by
          have := (Bool.and_eq_true _ _).mp h4
          exact List.isEmpty_iff.mp this.2
        intro c hc
        subst hrest
        rcases hc with _ | ⟨_, _ | ⟨_, _ | ⟨_, _ | ⟨_, hc⟩⟩⟩⟩
        · exact hlt1
        · exact hlt2
        · exact h3 ▸ pad_toNat_lt
        · exact h4' ▸ pad_toNat_lt
        · cases hc
      · rw [if_neg (by simpa using h4)] at h
        simp at h
    · rw [if_neg h3] at h
      cases hb3 : b64val c3 with
      | none => rw [hb3] at h; simp at h
      | some s3 =>
      rw [hb3] at h
      simp only at h
      have hlt3 : c3.toNat < 256 := b64val_some_lt c3 s3 hb3
      by_cases h4 : c4 = '='
      · rw [if_pos h4] at h
        by_cases hre : rest.isEmpty = true
        · have hrest : rest = [] := List.isEmpty_iff.mp hre
          intro c hc
          subst hrest
          rcases hc with _ | ⟨_, _ | ⟨_, _ | ⟨_, _ | ⟨_, hc⟩⟩⟩⟩
          · exact hlt1
          · exact hlt2
          · exact hlt3
          · exact h4 ▸ pad_toNat_lt
          · cases hc
        · rw [if_neg hre] at h
          simp at h
      · rw [if_neg h4] at h
        cases hb4 : b64val c4 with
        | none => rw [hb4] at h; simp at h
        | some s4 =>
        rw [hb4] at h
        simp only at h
        have hlt4 : c4.toNat < 256 := b64val_some_lt c4 s4 hb4
        cases hrec : dec4 rest with
        | none => rw [hrec] at h; simp at h
        | some bs' =>
        have hrest := dec4_chars rest bs' hrec
        intro c hc
        rcases hc with _ | ⟨_, _ | ⟨_, _ | ⟨_, _ | ⟨_, hc⟩⟩⟩⟩
        · exact hlt1
        · exact hlt2
        · exact hlt3
        · exact hlt4
        · exact hrest c hc

/-- Decoding right-inverts encoding on byte lists below 256. -/
theorem dec4_enc3 : ∀ (bs : List Nat), (∀ b ∈ bs, b < 256) → dec4 (enc3 bs) = some bs
  | [], _ => rfl
  | [b1], h => by
    have hb1 : b1 < 256 := h b1 (by simp)
    rw [enc3, dec4, b64val_chr _ (by omega), b64val_chr _ (by omega)]
    simp only [if_pos rfl]
    simp
    omega
  | [b1, b2], h => by
    have hb1 : b1 < 256 := h b1 (by simp)
    have hb2 : b2 < 256 := h b2 (by simp)
    rw [enc3, dec4, b64val_chr _ (by omega), b64val_chr _ (by omega)]
    simp only []
    rw [if_neg (b64chr_ne_pad _ (by omega)), b64val_chr _ (by omega)]
    simp only [if_pos rfl]
    simp
    exact ⟨by omega, by omega⟩
  | b1 :: b2 :: b3 :: rest, h => by
    have hb1 : b1 < 256 := h b1 (by simp)
    have hb2 : b2 < 256 := h b2 (by simp)
    have hb3 : b3 < 256 := h b3 (by simp)
    have hrest : ∀ b ∈ rest, b < 256 := fun b hb => h b (by simp [hb])
    have ih := dec4_enc3 rest hrest
    rw [enc3, dec4, b64val_chr _ (by omega), b64val_chr _ (by omega)]
    simp only []
    rw [if_neg (b64chr_ne_pad _ (by omega)), b64val_chr _ (by omega)]
    simp only []
    rw [if_neg (b64chr_ne_pad _ (by omega)), b64val_chr _ (by omega)]
    simp only []
    rw [ih]
    simp
    exact ⟨by omega, by omega, by omega⟩

theorem bytesStr_strBytes (s : String) : bytesStr (strBytes s) = s := by
  unfold bytesStr strBytes
  rw [List.map_map]
  have hco : (Char.ofNat ∘ Char.toNat) = id := funext fun c => Char.ofNat_toNat c
  rw [hco, List.map_id]
  exact strMk_toList s

/-! ### C9 -/

/-- C9: key storage round-trip — for every key string,
`decryptKey (encryptKey k) = k`, including the fallback case where `btoa`
throws (some character of the key is above Latin-1) and the key is stored
unchanged: `atob` then also throws, so `decryptKey` returns the stored
key unchanged. -/
theorem decrypt_encrypt_roundtrip (k : String) : decryptKey (encryptKey k) = k := by
  cases hall : (SALT ++ k).toList.all (fun c => decide (c.toNat < 256)) with
  | true =>
    have henc : encryptKey k = String.mk (enc3 (strBytes (SALT ++ k))) := by
      unfold encryptKey btoaM
      rw [if_pos hall]
      rfl
    have hbytes : ∀ b ∈ strBytes (SALT ++ k), b < 256 := by
      intro b hb
      rcases List.mem_map.mp hb with ⟨c, hc, rfl⟩
      have := List.all_eq_true.mp hall c hc
      exact of_decide_eq_true this
    have hdec : atobM (String.mk (enc3 (strBytes (SALT ++ k)))) = some (SALT ++ k) := by
      unfold atobM
      have : (String.mk (enc3 (strBytes (SALT ++ k)))).toList = enc3 (strBytes (SALT ++ k)) := rfl
      rw [this, dec4_enc3 _ hbytes]
      simp [bytesStr_strBytes]
    rw [henc]
    unfold decryptKey
    rw [hdec]
    simp only []
    have hpre : jsStartsWith (SALT ++ k) SALT = true := by
      unfold jsStartsWith
      rw [toList_append]
      exact isPre_append _ _
    rw [if_pos hpre]
    unfold jsSliceFrom
    rw [toList_append]
    have : SALT.length = SALT.toList.length := rfl
    rw [this, List.drop_left]
    exact strMk_toList k
  | false =>
    have henc : encryptKey k = k := by
      unfold encryptKey btoaM
      rw [if_neg (by rw [hall]; exact Bool.false_ne_true)]
      rfl
    rw [henc]
    have hnone : dec4 k.toList = none := by
      cases hdec : dec4 k.toList with
      | none => rfl
      | some bs =>
        exfalso
        have hk : ∀ c ∈ k.toList, c.toNat < 256 := dec4_chars _ _ hdec
        have hs : ∀ c ∈ SALT.toList, c.toNat < 256 := by decide
        have : (SALT ++ k).toList.all (fun c => decide (c.toNat < 256)) = true := by
          rw [toList_append, List.all_append]
          refine (Bool.and_eq_true _ _).mpr ⟨?_, ?_⟩ <;>
            · rw [List.all_eq_true]
              intro c hc
              first
                | exact decide_eq_true (hs c hc)
                | exact decide_eq_true (hk c hc)
        rw [this] at hall
        cases hall
    unfold decryptKey atobM
    rw [hnone]
    rfl

/-! ### Split/join lemmas for the CSV round trip -/

theorem splitOnChar_not_mem (sep : Char) : ∀ (l : List Char), sep ∉ l → splitOnChar sep l = [l]
  | [], _ => rfl
  | c :: rest, h => by
    have hc : ¬ c = sep := fun e => h (e ▸ List.mem_cons_self c rest)
    have hr := splitOnChar_not_mem sep rest (fun m => h (List.mem_cons_of_mem _ m))
    simp [splitOnChar, hc, hr]

theorem splitOnChar_append (sep : Char) : ∀ (p r : List Char), sep ∉ p →
    splitOnChar sep (p ++ sep :: r) = p :: splitOnChar sep r
  | [], r, _ => by simp [splitOnChar]
  | c :: p', r, h => by
    have hc : ¬ c = sep := fun e => h (e ▸ List.mem_cons_self c p')
    have ih := splitOnChar_append sep p' r (fun m => h (List.mem_cons_of_mem _ m))
    simp [splitOnChar, hc, ih]

theorem splitOnChar_joinChar (sep : Char) : ∀ (parts : List (List Char)), parts ≠ [] →
    (∀ p ∈ parts, sep ∉ p) → splitOnChar sep (joinChar sep parts) = parts
  | [], h, _ => absurd rfl h
  | [p], _, hp => by
    rw [joinChar]
    exact splitOnChar_not_mem sep p (hp p (List.mem_cons_self p []))
  | p :: q :: rest, _, hp => by
    have ih := splitOnChar_joinChar sep (q :: rest) (by simp)
      (fun x hx => hp x (List.mem_cons_of_mem _ hx))
    rw [joinChar, splitOnChar_append sep p _ (hp p (List.mem_cons_self p (q :: rest))), ih]

theorem map_mk_toList : ∀ (ps : List String), (ps.map String.toList).map String.mk = ps
  | [] => rfl
  | s :: rest => by simp [map_mk_toList rest, strMk_toList]

theorem jsSplit_jsJoin (sep : Char) (parts : List String) (hne : parts ≠ [])
    (h : ∀ p ∈ parts, sep ∉ p.toList) : jsSplit sep (jsJoin sep parts) = parts := by
  unfold jsSplit jsJoin
  have ht : (String.mk (joinChar sep (parts.map String.toList))).toList
      = joinChar sep (parts.map String.toList) := rfl
  rw [ht, splitOnChar_joinChar sep _ (by simpa using hne)
    (fun p hp => by rcases List.mem_map.mp hp with ⟨s, hs, rfl⟩; exact h s hs)]
  exact map_mk_toList parts

theorem not_mem_joinChar (sep x : Char) (hx : x ≠ sep) : ∀ (parts : List (List Char)),
    (∀ p ∈ parts, x ∉ p) → x ∉ joinChar sep parts
  | [], _ => by simp [joinChar]
  | [p], h => by
    rw [joinChar]
    exact h p (List.mem_cons_self p [])
  | p :: q :: rest, h => by
    have ih := not_mem_joinChar sep x hx (q :: rest) (fun a ha => h a (List.mem_cons_of_mem _ ha))
    rw [joinChar]
    intro hmem
    rcases List.mem_append.mp hmem with hp | hqr
    · exact h p (List.mem_cons_self p (q :: rest)) hp
    · rcases List.mem_cons.mp hqr with heq | hr
      · exact hx heq
      · exact ih hr

theorem jsSplit_cons (sep : Char) (hd : String) (lines : List String)
    (hh : sep ∉ hd.toList) (hl : ∀ p ∈ lines, sep ∉ p.toList) (hne : lines ≠ []) :
    jsSplit sep (hd ++ String.mk [sep] ++ jsJoin sep lines) = hd :: lines := by
  unfold jsSplit
  have ht : (hd ++ String.mk [sep] ++ jsJoin sep lines).toList
      = hd.toList ++ sep :: joinChar sep (lines.map String.toList) := by
    rw [toList_append, toList_append, List.append_assoc]
    rfl
  rw [ht, splitOnChar_append sep _ _ hh,
    splitOnChar_joinChar sep _ (by simpa using hne)
      (fun p hp => by rcases List.mem_map.mp hp with ⟨s, hs, rfl⟩; exact hl s hs),
    List.map_cons, strMk_toList, map_mk_toList]

/-! ### C8 -/

/-- C8, counterexample: the record set `[{f: "a\nb", g: "c"}]` satisfies
the claim's hypotheses (non-empty, shared field order, no comma in any
value's string form), yet the exported CSV `"f,g\na\nb,c"` re-parses into
two broken rows instead of the original values, because an embedded
newline splits a record across lines. -/
theorem csv_roundtrip_cex :
    (∀ kv ∈ ([("f", Value.str "a\nb"), ("g", Value.str "c")] : Record),
      (valueToString kv.2).toList.contains ',' = false) ∧
    naiveParseCSV (csvContent [[("f", Value.str "a\nb"), ("g", Value.str "c")]]) ≠
      [[("f", "a\nb"), ("g", "c")]] := by
  decide

/-- C8 (amended): for a non-empty record set in which every record shares
the first record's (non-empty) field order and no field name or value's
string form contains a comma or a newline, exporting to CSV and
re-parsing with the naive comma split reproduces every record's field
names paired with the string forms of its values. -/
theorem csv_roundtrip (r0 : Record) (rest : List Record)
    (hfields : ∀ r ∈ r0 :: rest, r.map Prod.fst = r0.map Prod.fst)
    (hne : r0 ≠ [])
    (hclean : ∀ r ∈ r0 :: rest, ∀ kv ∈ r,
      sepFree kv.1 = true ∧ sepFree (valueToString kv.2) = true) :
    naiveParseCSV (csvContent (r0 :: rest)) =
      (r0 :: rest).map (fun r => r.map (fun kv => (kv.1, valueToString kv.2))) := by
  have hclean' : ∀ r ∈ r0 :: rest, ∀ kv ∈ r,
      (',' ∉ kv.1.toList ∧ '\n' ∉ kv.1.toList) ∧
      (',' ∉ (valueToString kv.2).toList ∧ '\n' ∉ (valueToString kv.2).toList) := by
    intro r hr kv hkv
    have h := hclean r hr kv hkv
    exact ⟨of_decide_eq_true h.1, of_decide_eq_true h.2⟩
  have hr0ne : ∀ r ∈ r0 :: rest, r ≠ [] := by
    intro r hr hnil
    apply hne
    have := hfields r hr
    rw [hnil] at this
    exact List.map_eq_nil_iff.mp this.symm
  -- the header line and the per-record value lines
  have hhdr : '\n' ∉ (jsJoin ',' (r0.map Prod.fst)).toList := by
    show '\n' ∉ joinChar ',' ((r0.map Prod.fst).map String.toList)
    apply not_mem_joinChar ',' '\n' (by decide)
    intro p hp
    rw [List.map_map] at hp
    rcases List.mem_map.mp hp with ⟨kv, hkv, rfl⟩
    exact (hclean' r0 (List.mem_cons_self r0 rest) kv hkv).1.2
  have hlines : ∀ p ∈ (r0 :: rest).map (fun r => jsJoin ',' (r.map (fun kv => valueToString kv.2))),
      '\n' ∉ p.toList := by
    intro p hp
    rcases List.mem_map.mp hp with ⟨r, hr, rfl⟩
    show '\n' ∉ joinChar ',' ((r.map (fun kv => valueToString kv.2)).map String.toList)
    apply not_mem_joinChar ',' '\n' (by decide)
    intro q hq
    rw [List.map_map] at hq
    rcases List.mem_map.mp hq with ⟨kv, hkv, rfl⟩
    exact (hclean' r hr kv hkv).2.2
  have hsplit1 : jsSplit '\n' (csvContent (r0 :: rest)) =
      jsJoin ',' (r0.map Prod.fst) ::
        (r0 :: rest).map (fun r => jsJoin ',' (r.map (fun kv => valueToString kv.2))) := by
    have hcsv : csvContent (r0 :: rest) =
        jsJoin ',' (r0.map Prod.fst) ++ String.mk ['\n'] ++
          jsJoin '\n' ((r0 :: rest).map (fun r => jsJoin ',' (r.map (fun kv => valueToString kv.2)))) := rfl
    rw [hcsv]
    exact jsSplit_cons '\n' _ _ hhdr hlines (by simp)
  have hhdrsplit : jsSplit ',' (jsJoin ',' (r0.map Prod.fst)) = r0.map Prod.fst := by
    apply jsSplit_jsJoin ',' _ (by simpa using hne)
    intro p hp
    rcases List.mem_map.mp hp with ⟨kv, hkv, rfl⟩
    exact (hclean' r0 (List.mem_cons_self r0 rest) kv hkv).1.1
  unfold naiveParseCSV
  rw [hsplit1]
  simp only [hhdrsplit, List.map_map]
  apply List.map_congr_left
  intro r hr
  simp only [Function.comp]
  have hvals : jsSplit ',' (jsJoin ',' (r.map (fun kv => valueToString kv.2))) =
      r.map (fun kv => valueToString kv.2) := by
    apply jsSplit_jsJoin ',' _ (by simpa using hr0ne r hr)
    intro p hp
    rcases List.mem_map.mp hp with ⟨kv, hkv, rfl⟩
    exact (hclean' r hr kv hkv).2.1
  rw [hvals, ← hfields r hr, List.zip_map']

/-- Witness for `csv_roundtrip` on a concrete two-record data set. -/
theorem csv_roundtrip_witness :
    (∀ r ∈ ([[("a", Value.str "x"), ("b", Value.str "u")],
             [("a", Value.str "y"), ("b", Value.str "v")]] : List Record),
        r.map Prod.fst = ([("a", Value.str "x"), ("b", Value.str "u")] : Record).map Prod.fst) ∧
    (([("a", Value.str "x"), ("b", Value.str "u")] : Record) ≠ []) ∧
    (∀ r ∈ ([[("a", Value.str "x"), ("b", Value.str "u")],
             [("a", Value.str "y"), ("b", Value.str "v")]] : List Record), ∀ kv ∈ r,
        sepFree kv.1 = true ∧ sepFree (valueToString kv.2) = true) ∧
    naiveParseCSV (csvContent [[("a", Value.str "x"), ("b", Value.str "u")],
                               [("a", Value.str "y"), ("b", Value.str "v")]]) =
      ([[("a", Value.str "x"), ("b", Value.str "u")],
        [("a", Value.str "y"), ("b", Value.str "v")]] : List Record).map
        (fun r => r.map (fun kv => (kv.1, valueToString kv.2))) :=
  ⟨by decide, by decide, by decide,
    csv_roundtrip [("a", Value.str "x"), ("b", Value.str "u")]
      [[("a", Value.str "y"), ("b", Value.str "v")]] (by decide) (by decide) (by decide)⟩

end DataScope
